import Mathlib

/-!
Verification of the analysis handler of the youtube-helper repository
(src/src/app/api/analyze/route.ts).

The development shallowly embeds the handler's logic:
* a JSON value type and a JSON parser modelling the behaviour of
  JSON.parse on a response text,
* parseJsonResponse: strict parse with a fallback that extracts the
  leftmost greedy match of the pattern /\x7b[\s\S]*\x7d/ (i.e. the span
  from the first opening brace to the last closing brace),
* safePayload: the field-by-field sanitization of the parsed payload,
* POST: the handler pipeline over an explicit world of oracles
  (environment credential, parsed form data, external-call outcomes),
  producing a response, a trace of side effects and a final scratch-dir
  state.

JavaScript semantics notes that the embedding encodes:
* member access (payload.titles) on the JSON value null throws a
  TypeError; on any other non-object value it yields undefined,
* JSON.parse keeps the last of duplicated object keys,
* numbers never participate in any claim, so a JSON number is carried as
  its lexeme rather than as a floating-point value.
-/

/-- Model of a JavaScript value produced by JSON.parse.  A number is
represented by its source lexeme: no arithmetic is ever performed on it
by the code under study. -/
inductive Json where
  | null
  | bool (b : Bool)
  | num (lexeme : String)
  | str (s : String)
  | arr (elems : List Json)
  | obj (fields : List (String × Json))
deriving Repr

/-! ## JSON parser (model of JSON.parse) -/

/-- Model of JSON insignificant whitespace (space, tab, newline, carriage
return), as in the JSON grammar used by JSON.parse. -/
def jsonWs (c : Char) : Bool :=
  c = ' ' || c = '\t' || c = '\n' || c = '\r'

/-- Skip JSON whitespace. -/
def skipWs : List Char → List Char
  | c :: cs => if jsonWs c then skipWs cs else c :: cs
  | [] => []

/-- Hexadecimal digit value. -/
def hexVal (c : Char) : Option Nat :=
  if '0' ≤ c ∧ c ≤ '9' then some (c.toNat - '0'.toNat)
  else if 'a' ≤ c ∧ c ≤ 'f' then some (c.toNat - 'a'.toNat + 10)
  else if 'A' ≤ c ∧ c ≤ 'F' then some (c.toNat - 'A'.toNat + 10)
  else none

/-- Decode one escape sequence after a backslash inside a JSON string. -/
def parseEscape : List Char → Option (Char × List Char)
  | '"' :: cs => some ('"', cs)
  | '\\' :: cs => some ('\\', cs)
  | '/' :: cs => some ('/', cs)
  | 'b' :: cs => some (Char.ofNat 8, cs)
  | 'f' :: cs => some (Char.ofNat 12, cs)
  | 'n' :: cs => some ('\n', cs)
  | 'r' :: cs => some ('\r', cs)
  | 't' :: cs => some ('\t', cs)
  | 'u' :: a :: b :: c :: d :: cs => do
      let ha ← hexVal a
      let hb ← hexVal b
      let hc ← hexVal c
      let hd ← hexVal d
      some (Char.ofNat (((ha * 16 + hb) * 16 + hc) * 16 + hd), cs)
  | _ => none

/-- Parse the body of a JSON string after the opening quote; returns the
decoded characters and the input remaining after the closing quote.
Fuelled so the recursion is structural. -/
def parseStrAux : Nat → List Char → Option (List Char × List Char)
  | 0, _ => none
  | _ + 1, '"' :: cs => some ([], cs)
  | fuel + 1, '\\' :: cs => do
      let (c, rest) ← parseEscape cs
      let (s, rest2) ← parseStrAux fuel rest
      some (c :: s, rest2)
  | fuel + 1, c :: cs =>
      if c.toNat < 32 then none
      else do
        let (s, rest) ← parseStrAux fuel cs
        some (c :: s, rest)
  | _ + 1, [] => none

/-- Longest prefix of decimal digits, with the rest of the input. -/
def spanDigits : List Char → List Char × List Char
  | c :: cs =>
      if c.isDigit then
        let (d, r) := spanDigits cs
        (c :: d, r)
      else ([], c :: cs)
  | [] => ([], [])

/-- Parse the optional fraction part of a JSON number. -/
def parseFrac : List Char → Option (List Char × List Char)
  | '.' :: cs =>
      match cs with
      | c :: r =>
          if c.isDigit then
            let (d, r2) := spanDigits r
            some ('.' :: c :: d, r2)
          else none
      | [] => none
  | cs => some ([], cs)

/-- Parse the optional exponent part of a JSON number. -/
def parseExp : List Char → Option (List Char × List Char)
  | c :: cs =>
      if c = 'e' ∨ c = 'E' then
        let (sg, cs1) :=
          match cs with
          | '+' :: r => (['+'], r)
          | '-' :: r => (['-'], r)
          | _ => (([] : List Char), cs)
        match cs1 with
        | d :: r =>
            if d.isDigit then
              let (ds, r2) := spanDigits r
              some (c :: (sg ++ d :: ds), r2)
            else none
        | [] => none
      else some ([], c :: cs)
  | [] => some ([], [])

/-- Parse the integer part of a JSON number (after an optional sign):
either a lone 0 or a nonzero digit followed by digits. -/
def parseIntPart : List Char → Option (List Char × List Char)
  | '0' :: cs => some (['0'], cs)
  | c :: cs =>
      if c.isDigit then
        let (ds, r) := spanDigits cs
        some (c :: ds, r)
      else none
  | [] => none

/-- Parse a JSON number; returns its lexeme and the remaining input. -/
def parseNum (cs : List Char) : Option (List Char × List Char) := do
  let (sign, cs1) :=
    match cs with
    | '-' :: r => ((['-'] : List Char), r)
    | _ => ([], cs)
  let (ip, cs2) ← parseIntPart cs1
  let (fp, cs3) ← parseFrac cs2
  let (ep, cs4) ← parseExp cs3
  some (sign ++ ip ++ fp ++ ep, cs4)

mutual

/-- Parse one JSON value (after skipping leading whitespace). -/
def parseVal : Nat → List Char → Option (Json × List Char)
  | 0, _ => none
  | fuel + 1, cs =>
      match skipWs cs with
      | 'n' :: 'u' :: 'l' :: 'l' :: r => some (.null, r)
      | 't' :: 'r' :: 'u' :: 'e' :: r => some (.bool true, r)
      | 'f' :: 'a' :: 'l' :: 's' :: 'e' :: r => some (.bool false, r)
      | '"' :: r => do
          let (s, rest) ← parseStrAux r.length r
          some (.str (String.mk s), rest)
      | '[' :: r =>
          match skipWs r with
          | ']' :: r2 => some (.arr [], r2)
          | _ => do
              let (v, r2) ← parseVal fuel r
              let (vs, r3) ← parseElems fuel r2
              some (.arr (v :: vs), r3)
      | '{' :: r =>
          match skipWs r with
          | '}' :: r2 => some (.obj [], r2)
          | _ => do
              let (kv, r2) ← parseMember fuel r
              let (kvs, r3) ← parseMembers fuel r2
              some (.obj (kv :: kvs), r3)
      | rest => do
          let (lex, r) ← parseNum rest
          some (.num (String.mk lex), r)

/-- Parse the elements of an array after the first one: either a comma
and another value, or the closing bracket. -/
def parseElems : Nat → List Char → Option (List Json × List Char)
  | 0, _ => none
  | fuel + 1, cs =>
      match skipWs cs with
      | ',' :: r => do
          let (v, r2) ← parseVal fuel r
          let (vs, r3) ← parseElems fuel r2
          some (v :: vs, r3)
      | ']' :: r => some ([], r)
      | _ => none

/-- Parse one key-value member of an object. -/
def parseMember : Nat → List Char → Option ((String × Json) × List Char)
  | 0, _ => none
  | fuel + 1, cs =>
      match skipWs cs with
      | '"' :: r => do
          let (k, r2) ← parseStrAux r.length r
          match skipWs r2 with
          | ':' :: r3 => do
              let (v, r4) ← parseVal fuel r3
              some ((String.mk k, v), r4)
          | _ => none
      | _ => none

/-- Parse the members of an object after the first one: either a comma
and another member, or the closing brace. -/
def parseMembers : Nat → List Char → Option (List (String × Json) × List Char)
  | 0, _ => none
  | fuel + 1, cs =>
      match skipWs cs with
      | ',' :: r => do
          let (kv, r2) ← parseMember fuel r
          let (kvs, r3) ← parseMembers fuel r2
          some (kv :: kvs, r3)
      | '}' :: r => some ([], r)
      | _ => none

end

/-- Model of JSON.parse: parse one value, then require only whitespace to
remain.  The fuel (length of the input plus one) dominates the nesting
depth, which is bounded by the number of consumed characters. -/
def jsonParse (text : String) : Except Unit Json :=
  match parseVal (text.toList.length + 1) text.toList with
  | some (v, rest) =>
      match skipWs rest with
      | [] => .ok v
      | _ => .error ()
  | none => .error ()

/-! ## parseJsonResponse -/

/-- Model of text.match(/\x7b[\s\S]*\x7d/): the leftmost match of the
greedy pattern, i.e. the substring from the first opening brace to the
last closing brace of the whole text, provided the latter comes after the
former.  Returns none when the regex does not match. -/
def extractBraced (text : String) : Option String :=
  let cs := text.toList
  match cs.findIdx? (fun c => c == '{') with
  | none => none
  | some i =>
      match cs.reverse.findIdx? (fun c => c == '}') with
      | none => none
      | some jr =>
          let j := cs.length - 1 - jr
          if i < j then some (String.mk ((cs.drop i).take (j - i + 1))) else none

/-- Model of parseJsonResponse: strict JSON.parse of the whole text; on
failure, extract the brace-delimited substring and parse that; if there
is no such substring the original error propagates, and if parsing the
substring fails that error propagates. -/
def parseJsonResponse (text : String) : Except Unit Json :=
  match jsonParse text with
  | .ok v => .ok v
  | .error e =>
      match extractBraced text with
      | some sub => jsonParse sub
      | none => .error e

/-! ## safePayload -/

/-- Last-wins lookup in the field list of a parsed object, matching the
duplicate-key behaviour of JSON.parse (the later key overwrites). -/
def jsLookup (fs : List (String × Json)) (k : String) : Option Json :=
  fs.foldl (fun acc p => if p.1 = k then some p.2 else acc) none

/-- Value of the property k of a parsed value, ignoring the throw on
null: an object yields its field (or undefined, modelled as none), any
other value yields undefined. -/
def rawGet (payload : Json) (k : String) : Option Json :=
  match payload with
  | .obj fs => jsLookup fs k
  | _ => none

/-- Model of the JavaScript member access payload.k: accessing a member
of null throws a TypeError (the error branch); any other value yields
rawGet. -/
def getMember (payload : Json) (k : String) : Except Unit (Option Json) :=
  match payload with
  | .null => .error ()
  | _ => .ok (rawGet payload k)

/-- Shape of the sanitized result built by the handler.  The element type
of the three list fields is Json: the code truncates the arrays but does
not inspect their elements. -/
structure AnalysisPayload where
  titles : List Json
  description : String
  tags : List Json
  thumbnails : List Json
deriving Repr

/-- Model of Array.isArray(x) ? x.slice(0, cap) : [] applied to the value
of a member access (undefined when the field is absent). -/
def sanitizeArr (v : Option Json) (cap : Nat) : List Json :=
  match v with
  | some (.arr xs) => xs.take cap
  | _ => []

/-- Model of typeof x === "string" ? x : "" applied to the value of a
member access. -/
def sanitizeStr (v : Option Json) : String :=
  match v with
  | some (.str s) => s
  | _ => ""

/-- Model of the safePayload construction: four member accesses on the
parsed payload (each throwing if the payload is null), then the
field-by-field defaulting with truncation caps 5, 30 and 3. -/
def safePayload (payload : Json) : Except Unit AnalysisPayload :=
  match getMember payload "titles" with
  | .error e => .error e
  | .ok t =>
      match getMember payload "description" with
      | .error e => .error e
      | .ok d =>
          match getMember payload "tags" with
          | .error e => .error e
          | .ok g =>
              match getMember payload "thumbnails" with
              | .error e => .error e
              | .ok h =>
                  .ok ⟨sanitizeArr t 5, sanitizeStr d, sanitizeArr g 30, sanitizeArr h 3⟩

/-- Serialization shape of the handler's 200 response body,
NextResponse.json(safePayload): an object with exactly the four keys in
declaration order. -/
def payloadToJson (r : AnalysisPayload) : Json :=
  .obj [("titles", .arr r.titles), ("description", .str r.description),
        ("tags", .arr r.tags), ("thumbnails", .arr r.thumbnails)]

/-- String-typed test on a parsed value. -/
def isStr : Json → Bool
  | .str _ => true
  | _ => false

/-- Array test on the value of a member access, as Array.isArray. -/
def isArrayOpt : Option Json → Bool
  | some (.arr _) => true
  | _ => false

/-- String test on the value of a member access, as typeof x === "string". -/
def isStringOpt : Option Json → Bool
  | some (.str _) => true
  | _ => false

/-- Well-formedness of a response body in the sense of the spec's
invariant: an object with exactly the keys titles, description, tags,
thumbnails, the three sequence fields being arrays and the description a
string. -/
def wellFormedResult (j : Json) : Prop :=
  ∃ ts d gs hs, j = Json.obj [("titles", Json.arr ts), ("description", Json.str d),
    ("tags", Json.arr gs), ("thumbnails", Json.arr hs)]

/-! ## Handler model: world of oracles, side-effect trace, pipeline -/

/-- Binary blob sent as a form entry, with the metadata the handler
reads: name, MIME type and content bytes. -/
structure FileData where
  name : String
  type : String
  content : List Nat
deriving Repr

/-- One multipart form value, as in FormDataEntryValue: a text field or a
file. -/
inductive FormValue where
  | str (s : String)
  | file (f : FileData)
deriving Repr

/-- Result of the external file-storage upload: the addressable URI and
MIME type echoed back (upload.file in the code). -/
structure UploadInfo where
  uri : String
  mimeType : String
deriving Repr

/-- Inline base64-encoded image part of the generation request. -/
structure InlinePart where
  data : String
  mimeType : String
deriving Repr

/-- Generation parameters passed to the external model call.  The
temperature 0.6 is recorded in tenths to keep the embedding free of
floating point. -/
structure GenConfig where
  responseMimeType : String
  temperatureTenths : Nat
  maxOutputTokens : Nat
deriving Repr

/-- The generationConfig literal of the code. -/
def genConfig : GenConfig :=
  { responseMimeType := "application/json", temperatureTenths := 6, maxOutputTokens := 1200 }

/-- Side effects of one handler invocation, in order: writing the temp
file, the external upload call, the unlink of the temp file, and the
external generation call. -/
inductive Event where
  | writeTemp (path : String)
  | apiUpload (path : String) (mimeType : String) (displayName : String)
  | unlinkCall (path : String)
  | apiGenerate (prompt : String) (fileUri : String) (fileMime : String)
      (images : List InlinePart) (config : GenConfig)
deriving Repr

/-- Response returned by the handler.  processingFailure stands for any
exception escaping the handler, surfaced by the framework as a generic
500 response. -/
inductive Response where
  | ok (payload : AnalysisPayload)
  | clientError (msg : String)
  | configError (msg : String)
  | processingFailure
deriving Repr

/-- HTTP status of each response kind. -/
def statusOf : Response → Nat
  | .ok _ => 200
  | .clientError _ => 400
  | .configError _ => 500
  | .processingFailure => 500

/-- World of oracles for one invocation: the environment credential, the
parsed multipart form, the unique identifier produced by
crypto.randomUUID, the initial contents of the scratch directory, and the
outcomes of the external upload and generation calls; unlinkFails makes
the unlink syscall raise (leaving the file behind), modelling the
best-effort cleanup. -/
structure World where
  apiKey : Option String
  form : List (String × FormValue)
  uuid : String
  fs0 : List String
  uploadResult : Except Unit UploadInfo
  unlinkFails : Bool
  generateResult : Except Unit String

/-- Outcome of one invocation: the response, the ordered trace of side
effects, and the final contents of the scratch directory. -/
structure RunResult where
  resp : Response
  trace : List Event
  fs : List String

/-- Model of process.env.GEMINI_API_KEY being falsy: the variable is
unset, or set to the empty string. -/
def apiKeyMissing (w : World) : Bool :=
  match w.apiKey with
  | none => true
  | some s => s = ""

/-- Model of formData.get(k): the first entry under the key, or null. -/
def formGet (form : List (String × FormValue)) (k : String) : Option FormValue :=
  (form.find? (fun p => p.1 == k)).map (fun p => p.2)

/-- Model of formData.getAll(k): every entry under the key, in order. -/
def formGetAll (form : List (String × FormValue)) (k : String) : List FormValue :=
  (form.filter (fun p => p.1 == k)).map (fun p => p.2)

/-- Model of the JavaScript truthiness test used in .filter(Boolean) on
form entries: only the empty string is falsy. -/
def truthy : FormValue → Bool
  | .str s => s ≠ ""
  | .file _ => true

/-- Model of String(formData.get("context") ?? ""): null becomes the
empty string, a text field is itself, and a file stringifies to its
standard tag. -/
def coerceContext : Option FormValue → String
  | none => ""
  | some (.str s) => s
  | some (.file _) => "[object File]"

/-- Whitespace in the sense of String.prototype.trim: ASCII whitespace
plus no-break space and the byte-order mark. -/
def isJsWs (c : Char) : Bool :=
  c = ' ' || c = '\t' || c = '\n' || c = '\r' || c = Char.ofNat 11 ||
    c = Char.ofNat 12 || c = Char.ofNat 160 || c = Char.ofNat 65279

/-- Model of String.prototype.trim: drop whitespace from both ends. -/
def jsTrim (s : String) : String :=
  String.mk (((s.toList.dropWhile isJsWs).reverse.dropWhile isJsWs).reverse)

/-- The context value the handler computes from the form. -/
def contextOf (form : List (String × FormValue)) : String :=
  jsTrim (coerceContext (formGet form "context"))

/-- Character class of the regex /[^\w.-]+/ negated: word characters,
dot and hyphen survive the filename sanitization. -/
def isSafeChar (c : Char) : Bool :=
  ('A' ≤ c && c ≤ 'Z') || ('a' ≤ c && c ≤ 'z') || ('0' ≤ c && c ≤ '9') ||
    c = '_' || c = '.' || c = '-'

/-- Model of name.replace(/[^\w.-]+/g, "_"): each maximal run of unsafe
characters collapses to a single underscore.  The flag records whether
the previous character belonged to such a run. -/
def safeNameAux : List Char → Bool → List Char
  | [], _ => []
  | c :: cs, prevBad =>
      if isSafeChar c then c :: safeNameAux cs false
      else if prevBad then safeNameAux cs true
      else '_' :: safeNameAux cs true

/-- Sanitized original filename. -/
def safeName (name : String) : String :=
  String.mk (safeNameAux name.toList false)

/-- The uniquely-named temporary path used for the uploaded video. -/
def tempPath (uuid : String) (name : String) : String :=
  "/tmp/" ++ ("yt-helper-" ++ uuid ++ "-" ++ safeName name)

/-- Add a path to the scratch directory; the directory is a set of
paths, so writing an already-present path leaves the set unchanged. -/
def insertPath (fs : List String) (p : String) : List String :=
  if fs.contains p then fs else p :: fs

/-- Model of await unlink(p) on the scratch directory: when the oracle
says the syscall raises, the file stays; otherwise the path is removed
when present and the call errors with ENOENT when absent.  The caller
swallows the error either way. -/
def unlinkFsOp (fails : Bool) (fs : List String) (p : String) :
    List String × Except Unit Unit :=
  if fails then (fs, .error ())
  else if fs.contains p then (fs.filter (fun q => q ≠ p), .ok ())
  else (fs, .error ())

/-- Base64 alphabet. -/
def base64Table : List Char :=
  "ABCDEFGHIJKLMNOPQRSTUVWXYZabcdefghijklmnopqrstuvwxyz0123456789+/".toList

/-- Character of one 6-bit group. -/
def b64Char (n : Nat) : Char := base64Table.getD n 'A'

/-- Standard base64 encoding of a byte list, with padding. -/
def base64Encode : List Nat → List Char
  | [] => []
  | [b1] => [b64Char (b1 / 4), b64Char (b1 % 4 * 16), '=', '=']
  | [b1, b2] => [b64Char (b1 / 4), b64Char (b1 % 4 * 16 + b2 / 16), b64Char (b2 % 16 * 4), '=']
  | b1 :: b2 :: b3 :: rest =>
      b64Char (b1 / 4) :: b64Char (b1 % 4 * 16 + b2 / 16) ::
        b64Char (b2 % 16 * 4 + b3 / 64) :: b64Char (b3 % 64) :: base64Encode rest

/-- Model of fileToInlinePart: buffer the blob, base64-encode it, default
the MIME type to image/jpeg when the blob carries none. -/
def fileToInlinePart (f : FileData) : InlinePart :=
  { data := String.mk (base64Encode f.content),
    mimeType := if f.type = "" then "image/jpeg" else f.type }

/-- Model of Promise.all(imageFiles.map(fileToInlinePart)): a text entry
that survived .filter(Boolean) was cast to File, and calling
arrayBuffer() on it throws, failing the whole batch. -/
def imagesToInline : List FormValue → Except Unit (List InlinePart)
  | [] => .ok []
  | .file f :: rest =>
      match imagesToInline rest with
      | .ok ps => .ok (fileToInlinePart f :: ps)
      | .error e => .error e
  | .str _ :: _ => .error ()

/-- Head of the prompt template literal, up to the interpolation point
(the literal starts with the newline after the opening backtick). -/
def promptHead : String :=
  "\nYou are a YouTube growth strategist. Analyze the video content and return a JSON object with:\n- titles: 5 high-CTR YouTube title suggestions.\n- description: an SEO-optimized description with timestamps (use mm:ss format and realistic chapter labels).\n- tags: 30 relevant tags, lower case, no hashtags.\n- thumbnails: 3 detailed thumbnail concept descriptions (text only, no image generation).\n\nAdditional context from creator: "

/-- Tail of the prompt template literal, after the interpolation point
(ending in the newline and indentation before the closing backtick). -/
def promptTail : String :=
  "\n\nReturn only valid JSON with keys: titles, description, tags, thumbnails.\n  "

/-- Model of the prompt construction: the template literal with the
context (or the "None provided." placeholder when the context is the
empty string) interpolated, then trimmed. -/
def promptTemplate (context : String) : String :=
  jsTrim (promptHead ++ (if context = "" then "None provided." else context) ++ promptTail)

/-- The prompt head after the trim has removed the leading newline. -/
def promptPre : String :=
  "You are a YouTube growth strategist. Analyze the video content and return a JSON object with:\n- titles: 5 high-CTR YouTube title suggestions.\n- description: an SEO-optimized description with timestamps (use mm:ss format and realistic chapter labels).\n- tags: 30 relevant tags, lower case, no hashtags.\n- thumbnails: 3 detailed thumbnail concept descriptions (text only, no image generation).\n\nAdditional context from creator: "

/-- The prompt tail after the trim has removed the trailing newline and
indentation. -/
def promptSuf : String :=
  "\n\nReturn only valid JSON with keys: titles, description, tags, thumbnails."

/-- Stages of the handler after the temp file has been written and
scheduled for upload: the external upload (followed, regardless of its
outcome, by the unlink of the temp path), the inline-image preparation,
the generation call, the response parsing and the sanitization.  Returns
the response and the trace; the scratch-directory effect of the unlink is
applied by POST, and the unlink result is swallowed, so nothing here
reads it. -/
def POSTaux (w : World) (p : String) (upEv : Event) : Response × List Event :=
  match w.uploadResult with
  | .error _ => (.processingFailure, [.writeTemp p, upEv, .unlinkCall p])
  | .ok up =>
      match imagesToInline ((formGetAll w.form "images").filter truthy) with
      | .error _ => (.processingFailure, [.writeTemp p, upEv, .unlinkCall p])
      | .ok parts =>
          match w.generateResult with
          | .error _ => (.processingFailure, [.writeTemp p, upEv, .unlinkCall p,
              .apiGenerate (promptTemplate (contextOf w.form)) up.uri up.mimeType parts genConfig])
          | .ok text =>
              match parseJsonResponse text with
              | .error _ => (.processingFailure, [.writeTemp p, upEv, .unlinkCall p,
                  .apiGenerate (promptTemplate (contextOf w.form)) up.uri up.mimeType parts genConfig])
              | .ok payload =>
                  match safePayload payload with
                  | .error _ => (.processingFailure, [.writeTemp p, upEv, .unlinkCall p,
                      .apiGenerate (promptTemplate (contextOf w.form)) up.uri up.mimeType parts genConfig])
                  | .ok sp => (.ok sp, [.writeTemp p, upEv, .unlinkCall p,
                      .apiGenerate (promptTemplate (contextOf w.form)) up.uri up.mimeType parts genConfig])

/-- Model of the POST handler: credential check, form reads, video
check, temp-file write, external upload with unconditional unlink,
inline-image preparation, prompt construction, generation call, response
parsing and sanitization.  Any thrown error surfaces as
processingFailure. -/
def POST (w : World) : RunResult :=
  if apiKeyMissing w then
    ⟨.configError "Missing GEMINI_API_KEY environment variable.", [], w.fs0⟩
  else
    match formGet w.form "video" with
    | some (.file vf) =>
        let p := tempPath w.uuid vf.name
        let upEv := Event.apiUpload p (if vf.type = "" then "video/mp4" else vf.type)
          (if vf.name = "" then "youtube-helper-video" else vf.name)
        let fs2 := (unlinkFsOp w.unlinkFails (insertPath w.fs0 p) p).1
        ⟨(POSTaux w p upEv).1, (POSTaux w p upEv).2, fs2⟩
    | _ => ⟨.clientError "Video file is required.", [], w.fs0⟩

/-! ## Helper lemmas -/

/-- Sanitization never throws on a non-null payload, and its result is
the field-by-field defaulting of the four member accesses. -/
theorem safePayload_ok (p : Json) (hp : p ≠ Json.null) :
    safePayload p = .ok ⟨sanitizeArr (rawGet p "titles") 5, sanitizeStr (rawGet p "description"),
      sanitizeArr (rawGet p "tags") 30, sanitizeArr (rawGet p "thumbnails") 3⟩ := by
  cases p <;> first | exact absurd rfl hp | rfl

/-- A member access value that is not an array sanitizes to the empty
list. -/
theorem sanitizeArr_of_not_array (v : Option Json) (cap : Nat)
    (h : isArrayOpt v = false) : sanitizeArr v cap = [] := by
  match v with
  | none => rfl
  | some .null => rfl
  | some (.bool _) => rfl
  | some (.num _) => rfl
  | some (.str _) => rfl
  | some (.arr _) => exact absurd h (by simp [isArrayOpt])
  | some (.obj _) => rfl

/-- A member access value that is not a string sanitizes to the empty
string. -/
theorem sanitizeStr_of_not_string (v : Option Json)
    (h : isStringOpt v = false) : sanitizeStr v = "" := by
  match v with
  | none => rfl
  | some .null => rfl
  | some (.bool _) => rfl
  | some (.num _) => rfl
  | some (.str _) => exact absurd h (by simp [isStringOpt])
  | some (.arr _) => rfl
  | some (.obj _) => rfl

/-- A sanitized sequence field is already within its cap, so truncating
it again changes nothing. -/
theorem sanitizeArr_take (v : Option Json) (cap : Nat) :
    (sanitizeArr v cap).take cap = sanitizeArr v cap := by
  match v with
  | none => simp [sanitizeArr]
  | some .null => simp [sanitizeArr]
  | some (.bool _) => simp [sanitizeArr]
  | some (.num _) => simp [sanitizeArr]
  | some (.str _) => simp [sanitizeArr]
  | some (.arr xs) => simp [sanitizeArr, List.take_take]
  | some (.obj _) => simp [sanitizeArr]

/-- Sanitizing the serialized form of a sanitized result re-truncates
each field at its own cap. -/
theorem safePayload_payloadToJson (r : AnalysisPayload) :
    safePayload (payloadToJson r) =
      .ok ⟨r.titles.take 5, r.description, r.tags.take 30, r.thumbnails.take 3⟩ := rfl

/-- A payload on which sanitization succeeds is not the null value. -/
theorem ne_null_of_safePayload_ok (p : Json) (r : AnalysisPayload)
    (h : safePayload p = .ok r) : p ≠ Json.null := by
  intro e
  subst e
  exact Except.noConfusion h

/-! ## Claim theorems: parsing and sanitization -/

/-- C1 counterexample.  The sanitized result is not always "sequences
whose elements all have string type": the parsed payload with titles [1]
(obtainable from a model response) sanitizes to a result whose titles
still contains the number 1; moreover on the parsed payload null (the
response text "null") the member access throws instead of coercing, so
the handler propagates an error rather than returning a result. -/
theorem payloadShapeClaimFails :
    parseJsonResponse "\x7b\"titles\":[1],\"description\":\"d\",\"tags\":[],\"thumbnails\":[]\x7d"
      = Except.ok (Json.obj [("titles", Json.arr [Json.num "1"]), ("description", Json.str "d"),
          ("tags", Json.arr []), ("thumbnails", Json.arr [])])
    ∧ safePayload (Json.obj [("titles", Json.arr [Json.num "1"]), ("description", Json.str "d"),
          ("tags", Json.arr []), ("thumbnails", Json.arr [])])
        = Except.ok ⟨[Json.num "1"], "d", [], []⟩
    ∧ List.all [Json.num "1"] isStr = false
    ∧ jsonParse "null" = Except.ok Json.null
    ∧ safePayload Json.null = Except.error () :=
  ⟨rfl, rfl, rfl, rfl, rfl⟩

/-- C1 amended.  For every parsed payload other than the JSON value
null, sanitization succeeds and the response body is structurally
well-formed: an object with exactly the four expected keys, whose three
sequence fields are arrays (their elements passed through unchanged, not
necessarily strings) and whose description is a string. -/
theorem payloadShapeAmended (p : Json) (hp : p ≠ Json.null) :
    ∃ r, safePayload p = .ok r ∧ wellFormedResult (payloadToJson r) := by
  refine ⟨_, safePayload_ok p hp, ?_⟩
  exact ⟨_, _, _, _, rfl⟩

/-- Witness for C1 amended at the non-object payload true. -/
theorem payloadShapeAmendedWitness :
    ∃ r, safePayload (Json.bool true) = .ok r ∧ wellFormedResult (payloadToJson r) :=
  payloadShapeAmended (Json.bool true) (fun h => Json.noConfusion h)

/-- C2.  On a payload whose titles, tags and thumbnails members are
arrays and whose description member is a string, sanitization returns
exactly the first 5, 30 and 3 elements of the three sequences in
original order and the description unchanged; a sequence already within
its cap is returned whole. -/
theorem sanitizeIdentityUpToTruncation (p : Json) (ts gs hs : List Json) (d : String)
    (ht : getMember p "titles" = .ok (some (.arr ts)))
    (hd : getMember p "description" = .ok (some (.str d)))
    (hg : getMember p "tags" = .ok (some (.arr gs)))
    (hh : getMember p "thumbnails" = .ok (some (.arr hs))) :
    safePayload p = .ok ⟨ts.take 5, d, gs.take 30, hs.take 3⟩
    ∧ (ts.length ≤ 5 → ts.take 5 = ts)
    ∧ (gs.length ≤ 30 → gs.take 30 = gs)
    ∧ (hs.length ≤ 3 → hs.take 3 = hs) := by
  refine ⟨?_, fun h => List.take_of_length_le h, fun h => List.take_of_length_le h,
    fun h => List.take_of_length_le h⟩
  unfold safePayload
  rw [ht, hd, hg, hh]
  rfl

/-- Witness for C2 at the spec's example: 8 titles, 40 tags and 5
thumbnails sanitize to exactly 5, 30 and 3. -/
theorem sanitizeIdentityUpToTruncationWitness :
    safePayload (Json.obj [("titles", Json.arr (List.replicate 8 (Json.str "t"))),
        ("description", Json.str "d"),
        ("tags", Json.arr (List.replicate 40 (Json.str "g"))),
        ("thumbnails", Json.arr (List.replicate 5 (Json.str "h")))])
      = Except.ok ⟨List.replicate 5 (Json.str "t"), "d",
          List.replicate 30 (Json.str "g"), List.replicate 3 (Json.str "h")⟩ := by
  have h := (sanitizeIdentityUpToTruncation
      (Json.obj [("titles", Json.arr (List.replicate 8 (Json.str "t"))),
        ("description", Json.str "d"),
        ("tags", Json.arr (List.replicate 40 (Json.str "g"))),
        ("thumbnails", Json.arr (List.replicate 5 (Json.str "h")))])
      (List.replicate 8 (Json.str "t")) (List.replicate 40 (Json.str "g"))
      (List.replicate 5 (Json.str "h")) "d" rfl rfl rfl rfl).1
  rw [h]
  rfl

/-- C3.  Whenever sanitization produces a result, a member among titles,
tags, thumbnails whose accessed value is not an array — a string, a
number, an object, null, or absent (undefined) alike — yields the empty
sequence in the result, and a description whose accessed value is not a
string yields the empty string; the test inspects only the accessed
value, so an absent field and a wrongly-typed one are indistinguishable
to it. -/
theorem wrongTypedFieldsDefaulted (p : Json) (r : AnalysisPayload)
    (h : safePayload p = .ok r) :
    (isArrayOpt (rawGet p "titles") = false → r.titles = [])
    ∧ (isArrayOpt (rawGet p "tags") = false → r.tags = [])
    ∧ (isArrayOpt (rawGet p "thumbnails") = false → r.thumbnails = [])
    ∧ (isStringOpt (rawGet p "description") = false → r.description = "") := by
  have hp := ne_null_of_safePayload_ok p r h
  rw [safePayload_ok p hp] at h
  have hr := Except.ok.inj h
  subst hr
  exact ⟨fun hh => sanitizeArr_of_not_array _ _ hh,
    fun hh => sanitizeArr_of_not_array _ _ hh,
    fun hh => sanitizeArr_of_not_array _ _ hh,
    fun hh => sanitizeStr_of_not_string _ hh⟩

/-- Witness for C3 at a payload with a string-typed titles field, a
number-typed description and the other two fields absent. -/
theorem wrongTypedFieldsDefaultedWitness :
    safePayload (Json.obj [("titles", Json.str "x"), ("description", Json.num "7")])
        = Except.ok ⟨[], "", [], []⟩
    ∧ (⟨[], "", [], []⟩ : AnalysisPayload).titles = []
    ∧ (⟨[], "", [], []⟩ : AnalysisPayload).description = "" := by
  have h := wrongTypedFieldsDefaulted
    (Json.obj [("titles", Json.str "x"), ("description", Json.num "7")]) ⟨[], "", [], []⟩ rfl
  exact ⟨rfl, h.1 rfl, h.2.2.2 rfl⟩

/-- C4.  The parser returns the strict parse of the whole text whenever
that succeeds; exactly when it fails, the result is that of parsing the
extracted brace-delimited substring (the leftmost greedy match), the
original failure propagating when no such substring exists.  On the
spec's example text the embedded object is returned and the surrounding
prose ignored. -/
theorem parseStrictThenFallback :
    (∀ (text : String) (v : Json), jsonParse text = .ok v → parseJsonResponse text = .ok v)
    ∧ (∀ text : String, jsonParse text = .error () →
        parseJsonResponse text =
          match extractBraced text with
          | some sub => jsonParse sub
          | none => Except.error ())
    ∧ parseJsonResponse "Here is the result: \x7b\"titles\":[\"A\"],\"description\":\"d\",\"tags\":[],\"thumbnails\":[]\x7d Thanks!"
        = Except.ok (Json.obj [("titles", Json.arr [Json.str "A"]), ("description", Json.str "d"),
            ("tags", Json.arr []), ("thumbnails", Json.arr [])]) := by
  refine ⟨?_, ?_, rfl⟩
  · intro text v h
    unfold parseJsonResponse
    rw [h]
  · intro text h
    unfold parseJsonResponse
    rw [h]

/-- C5.  When the strict parse fails and the fallback also fails —
because there is no brace-delimited substring, or parsing the extracted
substring fails — the parser returns no value but an error, and a
handler run whose generation call produced such a text surfaces the
generic processing failure rather than a sanitized payload. -/
theorem parseFailurePropagates (text : String)
    (h1 : jsonParse text = .error ())
    (h2 : ∀ sub, extractBraced text = some sub → jsonParse sub = .error ()) :
    parseJsonResponse text = .error ()
    ∧ ∀ (w : World) (vf : FileData) (up : UploadInfo) (parts : List InlinePart),
        apiKeyMissing w = false →
        formGet w.form "video" = some (.file vf) →
        w.uploadResult = .ok up →
        imagesToInline ((formGetAll w.form "images").filter truthy) = .ok parts →
        w.generateResult = .ok text →
        (POST w).resp = .processingFailure := by
  have hp : parseJsonResponse text = .error () := by
    unfold parseJsonResponse
    rw [h1]
    cases he : extractBraced text with
    | none => rfl
    | some sub => exact h2 sub he
  refine ⟨hp, ?_⟩
  intro w vf up parts hk hv hu hi hg
  simp only [POST, hk, Bool.false_eq_true, if_false, hv]
  simp only [POSTaux, hu, hi, hg, hp]

/-- Witness for C5: a brace-free refusal text fails both parses and a
concrete run reaching the parse stage with it ends in the generic
processing failure. -/
theorem parseFailurePropagatesWitness :
    parseJsonResponse "The model refused to answer." = .error ()
    ∧ (POST ⟨some "key", [("video", .file ⟨"v.mp4", "video/mp4", [7]⟩)], "uuid1", [],
          .ok ⟨"files/abc", "video/mp4"⟩, false, .ok "The model refused to answer."⟩).resp
        = .processingFailure := by
  have h := parseFailurePropagates "The model refused to answer." rfl
    (by
      intro sub hsub
      rw [show extractBraced "The model refused to answer." = none from rfl] at hsub
      exact Option.noConfusion hsub)
  exact ⟨h.1, h.2 _ ⟨"v.mp4", "video/mp4", [7]⟩ ⟨"files/abc", "video/mp4"⟩ [] rfl rfl rfl rfl rfl⟩

/-- C10.  Sanitization is idempotent: serializing a sanitized result and
sanitizing it again returns it unchanged, every field being already a
within-cap array or a string. -/
theorem sanitizeIdempotent (p : Json) (r : AnalysisPayload)
    (h : safePayload p = .ok r) :
    safePayload (payloadToJson r) = .ok r := by
  have hp := ne_null_of_safePayload_ok p r h
  rw [safePayload_ok p hp] at h
  have hr := Except.ok.inj h
  subst hr
  rw [safePayload_payloadToJson]
  simp [sanitizeArr_take]

/-- Witness for C10 at a one-title payload. -/
theorem sanitizeIdempotentWitness :
    safePayload (payloadToJson ⟨[Json.str "a"], "", [], []⟩) = .ok ⟨[Json.str "a"], "", [], []⟩ :=
  sanitizeIdempotent (Json.obj [("titles", Json.arr [Json.str "a"])])
    ⟨[Json.str "a"], "", [], []⟩ rfl

/-! ## Claim theorems: handler control flow -/

/-- The trace of the post-write stages always starts with the temp-file
write, the upload call and the unlink of the temp path, in that order,
whatever the outcome of the upload and of every later stage. -/
theorem POSTaux_trace_take (w : World) (p : String) (e : Event) :
    ((POSTaux w p e).2).take 3 = [.writeTemp p, e, .unlinkCall p] := by
  unfold POSTaux
  split
  · rfl
  · split
    · rfl
    · split
      · rfl
      · split
        · rfl
        · split <;> rfl

/-- After a write followed by a successful unlink of the same path, the
path is gone from the scratch directory. -/
theorem not_mem_unlinked (fs : List String) (p : String) :
    p ∉ (unlinkFsOp false (insertPath fs p) p).1 := by
  by_cases hc : p ∈ fs
  · simp [unlinkFsOp, insertPath, hc, List.mem_filter]
  · simp [unlinkFsOp, insertPath, hc, List.mem_filter]

/-- The response of a run never depends on the outcome of the unlink
syscall: the cleanup error is swallowed. -/
theorem POST_resp_ignores_unlink (w : World) (b₁ b₂ : Bool) :
    (POST {w with unlinkFails := b₁}).resp = (POST {w with unlinkFails := b₂}).resp := by
  have hk1 : apiKeyMissing {w with unlinkFails := b₁} = apiKeyMissing w := rfl
  have hk2 : apiKeyMissing {w with unlinkFails := b₂} = apiKeyMissing w := rfl
  have hf1 : ({w with unlinkFails := b₁} : World).form = w.form := rfl
  have hf2 : ({w with unlinkFails := b₂} : World).form = w.form := rfl
  have hu1 : ({w with unlinkFails := b₁} : World).uuid = w.uuid := rfl
  have hu2 : ({w with unlinkFails := b₂} : World).uuid = w.uuid := rfl
  have hfs1 : ({w with unlinkFails := b₁} : World).fs0 = w.fs0 := rfl
  have hfs2 : ({w with unlinkFails := b₂} : World).fs0 = w.fs0 := rfl
  have haux : ∀ (b : Bool) (p : String) (e : Event),
      POSTaux {w with unlinkFails := b} p e = POSTaux w p e := fun _ _ _ => rfl
  cases hk : apiKeyMissing w with
  | true => simp [POST, hk1, hk2, hk]
  | false =>
      cases hfv : formGet w.form "video" with
      | none => simp [POST, hk1, hk2, hf1, hf2, hk, hfv]
      | some v =>
          cases v with
          | str s => simp [POST, hk1, hk2, hf1, hf2, hk, hfv]
          | file f => simp [POST, hk1, hk2, hf1, hf2, hu1, hu2, hk, hfv, haux]

/-- C6.  With the credential unset (or set to the falsy empty string)
the handler returns the configuration-error response with status 500 at
once: no temp file is written, no external call is made, and the scratch
directory is untouched, whatever the request contains. -/
theorem missingCredentialShortCircuits (w : World) (h : apiKeyMissing w = true) :
    POST w = ⟨.configError "Missing GEMINI_API_KEY environment variable.", [], w.fs0⟩
    ∧ statusOf (POST w).resp = 500 := by
  have hp : POST w = ⟨.configError "Missing GEMINI_API_KEY environment variable.", [], w.fs0⟩ := by
    simp [POST, h]
  exact ⟨hp, by rw [hp]; rfl⟩


/-- Witness for C6: a request that carries a perfectly good video still
gets the configuration error when the credential is absent. -/
theorem missingCredentialShortCircuitsWitness :
    POST ⟨none, [("video", .file ⟨"a.mp4", "video/mp4", [1]⟩)], "u1", [],
        .ok ⟨"uri", "m"⟩, false, .ok "\x7b\x7d"⟩
      = ⟨.configError "Missing GEMINI_API_KEY environment variable.", [], []⟩
    ∧ statusOf (POST ⟨none, [("video", .file ⟨"a.mp4", "video/mp4", [1]⟩)], "u1", [],
        .ok ⟨"uri", "m"⟩, false, .ok "\x7b\x7d"⟩).resp = 500 :=
  missingCredentialShortCircuits _ rfl

/-- C7.  With the credential configured but no file-typed video entry in
the form — the entry absent or a text field — the handler returns the
client-input error with status 400, writes no temp file, makes no
external call and leaves the scratch directory untouched. -/
theorem missingVideoRejected (w : World)
    (hk : apiKeyMissing w = false)
    (hv : ∀ f, formGet w.form "video" ≠ some (.file f)) :
    POST w = ⟨.clientError "Video file is required.", [], w.fs0⟩
    ∧ statusOf (POST w).resp = 400 := by
  have hp : POST w = ⟨.clientError "Video file is required.", [], w.fs0⟩ := by
    cases hfv : formGet w.form "video" with
    | none => simp [POST, hk, hfv]
    | some v =>
        cases v with
        | str s => simp [POST, hk, hfv]
        | file f => exact absurd hfv (hv f)
  exact ⟨hp, by rw [hp]; rfl⟩

/-- Witness for C7: a form whose video entry is a text field is
rejected without side effects. -/
theorem missingVideoRejectedWitness :
    POST ⟨some "k", [("video", .str "oops"), ("context", .str "c")], "u1", [],
        .ok ⟨"uri", "m"⟩, false, .ok "\x7b\x7d"⟩
      = ⟨.clientError "Video file is required.", [], []⟩
    ∧ statusOf (POST ⟨some "k", [("video", .str "oops"), ("context", .str "c")], "u1", [],
        .ok ⟨"uri", "m"⟩, false, .ok "\x7b\x7d"⟩).resp = 400 := by
  refine missingVideoRejected _ rfl ?_
  intro f h
  rw [show formGet [("video", FormValue.str "oops"), ("context", FormValue.str "c")] "video"
      = some (FormValue.str "oops") from rfl] at h
  exact FormValue.noConfusion (Option.some.inj h)

/-- C8.  Whenever the handler writes the temp file, the unlink of that
path is attempted right after the upload call, on the success and on
every failure path of the upload alike; when the unlink syscall succeeds
no file with the generated name remains in the scratch directory; and a
failing unlink is swallowed, never changing the handler's response. -/
theorem tempFileAlwaysCleaned (w : World) (vf : FileData)
    (hk : apiKeyMissing w = false)
    (hv : formGet w.form "video" = some (.file vf)) :
    (POST w).trace.take 3 = [.writeTemp (tempPath w.uuid vf.name),
        .apiUpload (tempPath w.uuid vf.name) (if vf.type = "" then "video/mp4" else vf.type)
          (if vf.name = "" then "youtube-helper-video" else vf.name),
        .unlinkCall (tempPath w.uuid vf.name)]
    ∧ (w.unlinkFails = false → tempPath w.uuid vf.name ∉ (POST w).fs)
    ∧ (POST {w with unlinkFails := true}).resp = (POST {w with unlinkFails := false}).resp := by
  refine ⟨?_, ?_, POST_resp_ignores_unlink w true false⟩
  · simp only [POST, hk, Bool.false_eq_true, if_false, hv]
    exact POSTaux_trace_take w _ _
  · intro hu
    simp only [POST, hk, Bool.false_eq_true, if_false, hv, hu]
    exact not_mem_unlinked w.fs0 _

/-- Witness for C8: a run with a failing upload still writes, uploads
and unlinks the same generated path (spaces in the original name mapped
to underscores, MIME defaulted to video/mp4), leaves nothing behind, and
its response ignores the unlink outcome. -/
theorem tempFileAlwaysCleanedWitness :
    (POST ⟨some "k", [("video", FormValue.file ⟨"my video.mp4", "", [9]⟩)], "u1", [],
        Except.error (), false, Except.error ()⟩).trace.take 3
      = [Event.writeTemp "/tmp/yt-helper-u1-my_video.mp4",
         Event.apiUpload "/tmp/yt-helper-u1-my_video.mp4" "video/mp4" "my video.mp4",
         Event.unlinkCall "/tmp/yt-helper-u1-my_video.mp4"]
    ∧ "/tmp/yt-helper-u1-my_video.mp4" ∉
        (POST ⟨some "k", [("video", FormValue.file ⟨"my video.mp4", "", [9]⟩)], "u1", [],
          Except.error (), false, Except.error ()⟩).fs
    ∧ (POST ⟨some "k", [("video", FormValue.file ⟨"my video.mp4", "", [9]⟩)], "u1", [],
          Except.error (), true, Except.error ()⟩).resp
        = (POST ⟨some "k", [("video", FormValue.file ⟨"my video.mp4", "", [9]⟩)], "u1", [],
          Except.error (), false, Except.error ()⟩).resp := by
  have h := tempFileAlwaysCleaned
    ⟨some "k", [("video", FormValue.file ⟨"my video.mp4", "", [9]⟩)], "u1", [],
      Except.error (), false, Except.error ()⟩
    ⟨"my video.mp4", "", [9]⟩ rfl rfl
  exact ⟨h.1, h.2.1 rfl, h.2.2⟩

/-! ## Claim theorem: prompt construction -/

/-- Appending to a list whose whitespace-stripped form is nonempty does
not change where the stripping stops. -/
theorem dropWhile_append_of_ne_nil (p : Char → Bool) (l₁ l₂ : List Char)
    (h : (l₁.dropWhile p).isEmpty = false) :
    (l₁ ++ l₂).dropWhile p = l₁.dropWhile p ++ l₂ := by
  rw [List.dropWhile_append, h]
  simp

/-- Gluing three strings at the character level is string append. -/
theorem strMk_append3 (a b c : String) :
    String.mk (a.toList ++ b.toList ++ c.toList) = a ++ b ++ c := by
  cases a
  cases b
  cases c
  rfl

/-- The trim of the interpolated template only removes the leading
newline of the head and the trailing newline-and-indentation of the
tail, whatever stands at the interpolation point. -/
theorem jsTrim_prompt (mid : String) :
    jsTrim (promptHead ++ mid ++ promptTail) = promptPre ++ mid ++ promptSuf := by
  unfold jsTrim
  have hdata : (promptHead ++ mid ++ promptTail).toList
      = promptHead.toList ++ (mid.toList ++ promptTail.toList) := by
    show (promptHead ++ mid ++ promptTail).data = _
    rw [String.data_append, String.data_append, List.append_assoc]
    rfl
  rw [hdata]
  rw [dropWhile_append_of_ne_nil isJsWs promptHead.toList _ (by rfl)]
  rw [show promptHead.toList.dropWhile isJsWs = promptPre.toList from rfl]
  rw [List.reverse_append]
  rw [List.reverse_append]
  rw [List.append_assoc]
  rw [dropWhile_append_of_ne_nil isJsWs promptTail.toList.reverse _ (by rfl)]
  rw [show promptTail.toList.reverse.dropWhile isJsWs = promptSuf.toList.reverse from rfl]
  rw [List.reverse_append, List.reverse_append, List.reverse_reverse, List.reverse_reverse,
    List.reverse_reverse]
  exact strMk_append3 promptPre mid promptSuf

/-- C9.  The prompt the handler builds is the fixed instructional text
with the creator context interpolated at its single insertion point: the
literal "None provided." placeholder when the (trimmed) context is
empty — in particular when the context field is absent — and the context
text itself otherwise. -/
theorem promptInterpolatesContext (form : List (String × FormValue)) :
    promptTemplate (contextOf form)
      = promptPre ++ (if contextOf form = "" then "None provided." else contextOf form) ++ promptSuf
    ∧ (formGet form "context" = none → contextOf form = "") := by
  refine ⟨jsTrim_prompt _, ?_⟩
  intro h
  unfold contextOf
  rw [h]
  rfl

/-- Witness for C9: a whitespace-only context yields the placeholder, a
real context is embedded verbatim (after trimming). -/
theorem promptInterpolatesContextWitness :
    promptTemplate (contextOf [("context", FormValue.str "   ")])
        = promptPre ++ "None provided." ++ promptSuf
    ∧ promptTemplate (contextOf [("context", FormValue.str " my gaming channel ")])
        = promptPre ++ "my gaming channel" ++ promptSuf := by
  have h1 := (promptInterpolatesContext [("context", FormValue.str "   ")]).1
  have h2 := (promptInterpolatesContext [("context", FormValue.str " my gaming channel ")]).1
  rw [show contextOf [("context", FormValue.str "   ")] = "" from rfl] at h1
  rw [show contextOf [("context", FormValue.str " my gaming channel ")]
      = "my gaming channel" from rfl] at h2
  rw [if_pos rfl] at h1
  rw [if_neg (by decide)] at h2
  exact ⟨h1, h2⟩
